import Mathlib

/-!
Verification of the kosan-app tenancy/billing/complaint core.

Shallow embedding of the Django back end:
  backend/tenants/models.py, backend/tenants/serializers.py, backend/tenants/views.py
  backend/payments/models.py, backend/payments/serializers.py, backend/payments/views.py
  backend/complaints/models.py, backend/complaints/serializers.py, backend/complaints/views.py
Database tables are lists of records; each endpoint or model method becomes a
pure function from state to state (fallible ones return Except).
-/

namespace Kosan

/-! Calendar dates, compared lexicographically like Python datetime.date. -/

structure Date where
  year : Nat
  month : Nat
  day : Nat
deriving DecidableEq, Repr

def Date.ltb (a b : Date) : Bool :=
  if a.year < b.year then true
  else if b.year < a.year then false
  else if a.month < b.month then true
  else if b.month < a.month then false
  else if a.day < b.day then true
  else false

/-! Room registry (backend/rooms/models.py): status is available, occupied or
maintenance.  Rooms are keyed by their unique room number, modelled as a Nat. -/

inductive RoomStatus where
  | available
  | occupied
  | maintenance
deriving DecidableEq, Repr

structure Room where
  id : Nat
  status : RoomStatus
deriving DecidableEq, Repr

/-! Tenancy ledger (backend/tenants/models.py RoomAssignment).
Tenants are keyed by their TenantProfile primary key (a Nat); assignment
primary keys are modelled as Nats (the ASN-XXX generator is studied
separately in the IdGen section, over its real string representation). -/

structure Assignment where
  id : Nat
  tenant : Nat
  room : Nat
  move_in_date : Date
  lease_end_date : Option Date
  move_out_date : Option Date
  is_current : Bool
  monthly_rent : Int
deriving DecidableEq, Repr

structure TState where
  rooms : List Room
  assignments : List Assignment
deriving DecidableEq, Repr

/-- Error taxonomy of the spec, as the structured error responses of the
views map onto it. -/
inductive LedgerError where
  | conflict
  | invalidDate
  | notFound
  | precondition
deriving DecidableEq, Repr

def findRoom (s : TState) (rid : Nat) : Option Room :=
  s.rooms.find? fun r => r.id == rid

def setRoomStatus (s : TState) (rid : Nat) (st : RoomStatus) : TState :=
  { s with rooms := s.rooms.map fun r => if r.id == rid then { r with status := st } else r }

def lookupAssignment (s : TState) (aid : Nat) : Option Assignment :=
  s.assignments.find? fun a => a.id == aid

/-- RoomAssignment.objects.filter(room=..., is_current=True) is nonempty. -/
def roomHasCurrent (s : TState) (rid : Nat) : Bool :=
  s.assignments.any fun b => b.room == rid && b.is_current

/-- RoomAssignment.objects.filter(tenant=..., is_current=True) is nonempty. -/
def tenantHasCurrent (s : TState) (tid : Nat) : Bool :=
  s.assignments.any fun b => b.tenant == tid && b.is_current

/-- lease_end_date is present and strictly before move_in_date. -/
def badLeaseDate (mIn : Date) (lEnd : Option Date) : Bool :=
  match lEnd with
  | some d => Date.ltb d mIn
  | none => false

/-- RoomAssignment.clean (tenants/models.py lines 216-254): when is_current,
no other current assignment (pk excluded) may reference the same room or the
same tenant; move_out_date and lease_end_date must not precede move_in_date. -/
def cleanCheck (s : TState) (a : Assignment) : Except LedgerError Unit :=
  if a.is_current && (s.assignments.any fun b => b.id != a.id && b.room == a.room && b.is_current) then
    .error .conflict
  else if a.is_current && (s.assignments.any fun b => b.id != a.id && b.tenant == a.tenant && b.is_current) then
    .error .conflict
  else if (match a.move_out_date with | some d => Date.ltb d a.move_in_date | none => false) then
    .error .invalidDate
  else if badLeaseDate a.move_in_date a.lease_end_date then
    .error .invalidDate
  else
    .ok ()

/-- RoomAssignment.save: run clean, then persist (insert, or update the row
with the same primary key). -/
def saveAssignment (s : TState) (a : Assignment) : Except LedgerError TState :=
  match cleanCheck s a with
  | .error e => .error e
  | .ok _ => .ok { s with assignments := a :: s.assignments.filter fun b => b.id != a.id }

/-- Fresh ASN primary key: one more than the largest key in the table. -/
def nextAssignmentId (s : TState) : Nat :=
  (s.assignments.map fun a => a.id).foldr max 0 + 1

structure AssignRequest where
  tenant : Nat
  room : Nat
  move_in_date : Date
  lease_end_date : Option Date
  monthly_rent : Int
deriving DecidableEq, Repr

/-- RoomAssignmentCreateSerializer.validate + create (tenants/serializers.py
lines 212-269): reject when the room has a current assignment, the tenant has
a current assignment, lease_end_date < move_in_date, or the room is not
available (in that order); otherwise create the assignment (is_current
defaults to True) and set the room status to occupied. -/
def assignRoom (s : TState) (req : AssignRequest) : Except LedgerError (TState × Assignment) :=
  match findRoom s req.room with
  | none => .error .notFound
  | some room =>
    if roomHasCurrent s req.room then .error .conflict
    else if tenantHasCurrent s req.tenant then .error .conflict
    else if badLeaseDate req.move_in_date req.lease_end_date then .error .invalidDate
    else if room.status != .available then .error .conflict
    else
      let a : Assignment :=
        { id := nextAssignmentId s, tenant := req.tenant, room := req.room,
          move_in_date := req.move_in_date, lease_end_date := req.lease_end_date,
          move_out_date := none, is_current := true, monthly_rent := req.monthly_rent }
      match saveAssignment s a with
      | .error e => .error e
      | .ok s1 => .ok (setRoomStatus s1 req.room .occupied, a)

/-- RoomAssignment.end_assignment (tenants/models.py lines 277-292): set
is_current to False and move_out_date, save (which re-runs clean), then flip
the room status back to available. -/
def endAssignment (s : TState) (aid : Nat) (move_out : Date) : Except LedgerError TState :=
  match lookupAssignment s aid with
  | none => .error .notFound
  | some a =>
    match saveAssignment s { a with is_current := false, move_out_date := some move_out } with
    | .error e => .error e
    | .ok s1 => .ok (setRoomStatus s1 a.room .available)

structure ChangeRequest where
  new_room : Nat
  move_out_date : Date
  move_in_date : Date
  lease_end_date : Option Date
  monthly_rent : Int
deriving DecidableEq, Repr

def currentAssignmentOf (s : TState) (tid : Nat) : Option Assignment :=
  s.assignments.find? fun a => a.tenant == tid && a.is_current

/-- change_room (tenants/views.py lines 341-429): find the current
assignment, check the new room exists and differs, end the current
assignment, then attempt the new assignment.  When the second step fails the
code only returns the error: the ending of the old assignment is left
applied (the source comments this explicitly).  The returned state is the
persistent state after the call. -/
def changeRoom (s : TState) (tid : Nat) (req : ChangeRequest) :
    TState × Except LedgerError (Assignment × Assignment) :=
  match currentAssignmentOf s tid with
  | none => (s, .error .precondition)
  | some cur =>
    match findRoom s req.new_room with
    | none => (s, .error .notFound)
    | some _ =>
      if cur.room == req.new_room then (s, .error .precondition)
      else
        match endAssignment s cur.id req.move_out_date with
        | .error e => (s, .error e)
        | .ok s1 =>
          let areq : AssignRequest :=
            { tenant := tid, room := req.new_room, move_in_date := req.move_in_date,
              lease_end_date := req.lease_end_date, monthly_rent := req.monthly_rent }
          match assignRoom s1 areq with
          | .error e => (s1, .error e)
          | .ok (s2, na) =>
            (s2, .ok ({ cur with is_current := false, move_out_date := some req.move_out_date }, na))

/-- States reachable by the tenancy ledger operations, starting from any room
registry with an empty assignment table. -/
inductive Reach : TState → Prop where
  | init (rooms : List Room) : Reach { rooms := rooms, assignments := [] }
  | save {s s' : TState} {a : Assignment} :
      Reach s → saveAssignment s a = .ok s' → Reach s'
  | assign {s s' : TState} {req : AssignRequest} {a : Assignment} :
      Reach s → assignRoom s req = .ok (s', a) → Reach s'
  | endA {s s' : TState} {aid : Nat} {d : Date} :
      Reach s → endAssignment s aid d = .ok s' → Reach s'
  | change {s : TState} {tid : Nat} {req : ChangeRequest} :
      Reach s → Reach (changeRoom s tid req).1

def roomCount (s : TState) (rid : Nat) : Nat :=
  s.assignments.countP fun a => a.room == rid && a.is_current

def tenantCount (s : TState) (tid : Nat) : Nat :=
  s.assignments.countP fun a => a.tenant == tid && a.is_current

/-- At most one current assignment per room and per tenant. -/
def ExclusivityInv (s : TState) : Prop :=
  (∀ rid, roomCount s rid ≤ 1) ∧ (∀ tid, tenantCount s tid ≤ 1)

def datesOk (a : Assignment) : Bool :=
  (match a.move_out_date with | some d => !(Date.ltb d a.move_in_date) | none => true) &&
  (match a.lease_end_date with | some d => !(Date.ltb d a.move_in_date) | none => true)

def DatesInv (s : TState) : Prop :=
  ∀ a ∈ s.assignments, datesOk a = true

/-! Billing ledger (backend/payments/models.py, serializers.py, views.py).
Timestamps (paid_at, resolved_at) are modelled as abstract Nat ticks supplied
by the caller, mirroring timezone.now(). -/

inductive PayStatus where
  | pending
  | paid
  | cancelled
deriving DecidableEq, Repr

inductive PayMethod where
  | cash
  | transfer
  | other
deriving DecidableEq, Repr

inductive BillError where
  | alreadyPaid
  | invalidInput
  | precondition
deriving DecidableEq, Repr

structure Payment where
  tenant : Nat
  payment_period_month : Nat
  payment_period_year : Nat
  amount : Int
  due_date : Date
  payment_date : Option Date
  status : PayStatus
  payment_method : Option PayMethod
  payment_reference : Option String
  notes : Option String
  paid_at : Option Nat
  paid_by : Option Nat
deriving DecidableEq, Repr

/-- Payment.clean (payments/models.py lines 319-352): amount positive; when
paid, payment_date present and not in the future; month in 1..12; year in
2000..2100. -/
def Payment.cleanOk (p : Payment) (todayD : Date) : Bool :=
  (0 < p.amount : Bool) &&
  (match p.status, p.payment_date with
   | .paid, none => false
   | .paid, some d => !(Date.ltb todayD d)
   | _, _ => true) &&
  (1 ≤ p.payment_period_month : Bool) && (p.payment_period_month ≤ 12 : Bool) &&
  (2000 ≤ p.payment_period_year : Bool) && (p.payment_period_year ≤ 2100 : Bool)

/-- mark_as_paid endpoint (payments/views.py lines 314-384 together with
Payment.mark_as_paid, models.py lines 365-395): refuse when already paid;
otherwise set status paid, payment_date (defaulting to today), paid_at,
paid_by, and optionally payment_method / notes / payment_reference; every
save re-runs clean. -/
def markPaid (p : Payment) (payment_date : Option Date) (todayD : Date) (nowT : Nat)
    (method : Option PayMethod) (reference : Option String) (actor : Nat)
    (notes : Option String) : Except BillError Payment :=
  if p.status == .paid then .error .alreadyPaid
  else
    let p1 : Payment :=
      { p with status := .paid,
               payment_date := some (payment_date.getD todayD),
               paid_at := some nowT,
               payment_method := (match method with | some m => some m | none => p.payment_method),
               paid_by := some actor,
               notes := (match notes with | some n => some n | none => p.notes) }
    if p1.cleanOk todayD then
      match reference with
      | some r =>
        let p2 : Payment := { p1 with payment_reference := some r }
        if p2.cleanOk todayD then .ok p2 else .error .invalidInput
      | none => .ok p1
    else .error .invalidInput

/-- Payment.cancel (payments/models.py lines 397-414): refuse when paid;
otherwise set status cancelled, optionally replace notes, save. -/
def Payment.cancel (p : Payment) (notes : Option String) (todayD : Date) :
    Except BillError Payment :=
  if p.status == .paid then .error .alreadyPaid
  else
    let p1 : Payment :=
      { p with status := .cancelled,
               notes := (match notes with | some n => some n | none => p.notes) }
    if p1.cleanOk todayD then .ok p1 else .error .invalidInput

/-- delete_payment (payments/views.py lines 270-305): paid payments cannot be
deleted; the row is identified by its primary key, modelled here by the row
value (primary keys are unique). -/
def deletePayment (ps : List Payment) (p : Payment) : Except BillError (List Payment) :=
  if p.status == .paid then .error .precondition
  else .ok (ps.filter fun q => q != p)

/-- Partial update payload of PaymentUpdateSerializer; none means the field
is absent from the request. -/
structure PayUpdate where
  payment_date : Option Date
  status : Option PayStatus
  payment_method : Option PayMethod
  payment_reference : Option String
  notes : Option String
deriving DecidableEq, Repr

/-- PaymentUpdateSerializer.validate + save (payments/serializers.py lines
264-318): forbid changing paid back to pending; changing to paid needs a
payment_date (new or existing); then write the provided fields and save
(which re-runs clean). -/
def updatePayment (p : Payment) (u : PayUpdate) (todayD : Date) : Except BillError Payment :=
  let newStatus := u.status.getD p.status
  if p.status == .paid && newStatus == .pending then .error .invalidInput
  else if newStatus == .paid && u.payment_date == none && p.payment_date == none then
    .error .invalidInput
  else
    let p1 : Payment :=
      { p with status := newStatus,
               payment_date := (match u.payment_date with | some d => some d | none => p.payment_date),
               payment_method := (match u.payment_method with | some m => some m | none => p.payment_method),
               payment_reference := (match u.payment_reference with | some r => some r | none => p.payment_reference),
               notes := (match u.notes with | some n => some n | none => p.notes) }
    if p1.cleanOk todayD then .ok p1 else .error .invalidInput

/-! Monthly generation (payments/views.py generate_monthly_payments,
lines 535-653). -/

def isLeapYear (y : Nat) : Bool :=
  y % 4 == 0 && (y % 100 != 0 || y % 400 == 0)

/-- calendar.monthrange(year, month)[1] for month in 1..12. -/
def daysInMonth (y m : Nat) : Nat :=
  if m == 2 then (if isLeapYear y then 29 else 28)
  else if m == 4 || m == 6 || m == 9 || m == 11 then 30
  else 31

/-- date(year, month, due_day), falling back to
date(year, month, min(due_day, last_day)) when the day overflows the month
(the ValueError branch of the source). -/
def dueDateFor (y m dd : Nat) : Date :=
  if dd ≤ daysInMonth y m then ⟨y, m, dd⟩
  else ⟨y, m, min dd (daysInMonth y m)⟩

/-- Payment.objects.filter(tenant=..., payment_period_month=...,
payment_period_year=...).exists(). -/
def hasPayment (ps : List Payment) (t m y : Nat) : Bool :=
  ps.any fun p => p.tenant == t && p.payment_period_month == m && p.payment_period_year == y

/-- The pending payment created for one active assignment. -/
def mkMonthlyPayment (a : Assignment) (m y dd : Nat) : Payment :=
  { tenant := a.tenant, payment_period_month := m, payment_period_year := y,
    amount := a.monthly_rent, due_date := dueDateFor y m dd, payment_date := none,
    status := .pending, payment_method := none, payment_reference := none,
    notes := none, paid_at := none, paid_by := none }

/-- The generation loop over active assignments: skip a tenant who already
has a payment for the period, otherwise create a pending payment (create
runs Payment.clean; a clean failure aborts the request).  Returns the payment
table, the created payments and the skipped tenants. -/
def generateLoop (m y dd : Nat) (todayD : Date) :
    List Assignment → List Payment → Except BillError (List Payment × List Payment × List Nat)
  | [], ps => .ok (ps, [], [])
  | a :: rest, ps =>
    if hasPayment ps a.tenant m y then
      match generateLoop m y dd todayD rest ps with
      | .error e => .error e
      | .ok (ps', created, skipped) => .ok (ps', created, a.tenant :: skipped)
    else
      let np := mkMonthlyPayment a m y dd
      if np.cleanOk todayD then
        match generateLoop m y dd todayD rest (np :: ps) with
        | .error e => .error e
        | .ok (ps', created, skipped) => .ok (ps', np :: created, skipped)
      else .error .invalidInput

/-- generate_monthly_payments endpoint: validate month and due_day ranges,
then run the loop over all is_current assignments. -/
def generateMonthlyPayments (s : TState) (ps : List Payment) (m y dd : Nat) (todayD : Date) :
    Except BillError (List Payment × List Payment × List Nat) :=
  if m < 1 || 12 < m then .error .invalidInput
  else if dd < 1 || 31 < dd then .error .invalidInput
  else generateLoop m y dd todayD (s.assignments.filter fun a => a.is_current) ps

/-! Complaint workflow (backend/complaints/models.py, serializers.py,
views.py). -/

inductive CStatus where
  | «open»
  | in_progress
  | resolved
  | closed
deriving DecidableEq, Repr

inductive CErr where
  | invalidInput
deriving DecidableEq, Repr

structure Complaint where
  status : CStatus
  priority : Nat
  category : Nat
  resolution_notes : Option String
  resolved_at : Option Nat
  resolved_by : Option Nat
deriving DecidableEq, Repr

/-- Python truthiness of an optional text field: absent or empty string. -/
def strFalsy : Option String → Bool
  | none => true
  | some s => s == ""

/-- Complaint.mark_as_resolved (complaints/models.py lines 222-246): refuse
when already resolved or closed; otherwise set status resolved, stamp
resolved_at, and set resolution_notes / resolved_by when truthy arguments
are given. -/
def Complaint.mark_as_resolved (c : Complaint) (notes : Option String)
    (resolver : Option Nat) (nowT : Nat) : Option Complaint :=
  if c.status == .resolved || c.status == .closed then none
  else
    some { c with status := .resolved,
                  resolved_at := some nowT,
                  resolution_notes := (if strFalsy notes then c.resolution_notes else notes),
                  resolved_by := (match resolver with | some u => some u | none => c.resolved_by) }

/-- Complaint.close (complaints/models.py lines 248-263): refuse when already
closed; otherwise set status closed and stamp resolved_at if absent. -/
def Complaint.close (c : Complaint) (nowT : Nat) : Option Complaint :=
  if c.status == .closed then none
  else
    some { c with status := .closed,
                  resolved_at := (match c.resolved_at with | some t => some t | none => some nowT) }

/-- Partial update payload of ComplaintUpdateSerializer; none means the
field is absent from the request. -/
structure ComplaintUpdate where
  status : Option CStatus
  priority : Option Nat
  category : Option Nat
  resolution_notes : Option String
deriving DecidableEq, Repr

/-- ComplaintUpdateSerializer.validate + update (complaints/serializers.py
lines 194-243) and ComplaintUpdateView.perform_update (complaints/views.py
lines 147-167): marking resolved needs truthy resolution_notes (incoming or
already on file); resolved_at is stamped when the status newly becomes
resolved; the view records resolved_by when the request status is resolved. -/
def updateComplaint (c : Complaint) (u : ComplaintUpdate) (nowT : Nat) (actor : Nat) :
    Except CErr Complaint :=
  let newStatus := u.status.getD c.status
  if newStatus == .resolved && strFalsy u.resolution_notes && strFalsy c.resolution_notes then
    .error .invalidInput
  else
    let c1 := if newStatus == .resolved && c.status != .resolved
              then { c with resolved_at := some nowT } else c
    let c2 : Complaint :=
      { c1 with status := newStatus,
                priority := u.priority.getD c.priority,
                category := u.category.getD c.category,
                resolution_notes := (match u.resolution_notes with | some n => some n | none => c1.resolution_notes) }
    if u.status == some .resolved then .ok { c2 with resolved_by := some actor }
    else .ok c2

/-! Human-readable primary key generation (generate_payment_id,
payments/models.py lines 10-26, and generate_assignment_id, tenants/models.py
lines 7-23).  Identifiers are ASCII strings; a string is modelled as its list
of character codes, and string comparison (both the Python comparison and the
binary collation used by order_by on the id column) is lexicographic on those
codes. -/

/-- A character-code string. -/
abbrev Str := List Nat

/-- Lexicographic strict comparison of two code strings (Python string <). -/
def strLtb : Str → Str → Bool
  | [], [] => false
  | [], _ :: _ => true
  | _ :: _, [] => false
  | a :: as, b :: bs => if a < b then true else if b < a then false else strLtb as bs

/-- Payment.objects.order_by(descending id).first(): the id that is greatest
in string order, none on an empty table. -/
def maxId? : List Str → Option Str
  | [] => none
  | x :: xs =>
    match maxId? xs with
    | none => some x
    | some m => if strLtb m x then some x else some m

/-- Python str.split on a dash (code 45). -/
def split45 : Str → List Str
  | [] => [[]]
  | c :: cs =>
    if c = 45 then [] :: split45 cs
    else
      match split45 cs with
      | [] => [[c]]
      | s :: ss => (c :: s) :: ss

/-- Python int(..) on the digit-only segments that occur in these ids:
defined on nonempty all-digit strings, none otherwise (the ValueError
branch of the source). -/
def parseNat? (s : Str) : Option Nat :=
  match s with
  | [] => none
  | _ =>
    if s.all (fun c => 48 ≤ c && c ≤ 57) then
      some (s.foldl (fun acc c => acc * 10 + (c - 48)) 0)
    else none

/-- The three decimal digits of n < 1000 (the zero-padding case of
the format spec 03d). -/
def pad3 (n : Nat) : Str := [48 + n / 100, 48 + n / 10 % 10, 48 + n % 10]

/-- Decimal digits of n, most significant first. -/
def digitsOf (n : Nat) : Str := (Nat.toDigits 10 n).map Char.toNat

/-- Python format spec 03d: zero-pad to at least three digits. -/
def fmt03 (n : Nat) : Str := if n < 1000 then pad3 n else digitsOf n

/-- The codes of "PAY-". -/
def payTag : Str := [80, 65, 89, 45]

/-- The codes of "ASN-". -/
def asnTag : Str := [65, 83, 78, 45]

/-- "PAY-" followed by the formatted number. -/
def payFmt (n : Nat) : Str := payTag ++ fmt03 n

/-- Core of generate_payment_id / generate_assignment_id: take the id
greatest in descending string order; when it starts with the tag, parse the
segment after the first dash and add one; on an empty table, a foreign
prefix, or an unparsable segment, start from 1; format zero-padded. -/
def genNextId (tag : Str) (table : List Str) : Str :=
  match maxId? table with
  | none => tag ++ fmt03 1
  | some last =>
    if last.take tag.length = tag then
      match split45 last with
      | _ :: seg :: _ =>
        (match parseNat? seg with
         | some k => tag ++ fmt03 (k + 1)
         | none => tag ++ fmt03 1)
      | _ => tag ++ fmt03 1
    else tag ++ fmt03 1

/-- generate_payment_id (payments/models.py lines 10-26). -/
def generate_payment_id (table : List Str) : Str := genNextId payTag table

/-- generate_assignment_id (tenants/models.py lines 7-23). -/
def generate_assignment_id (table : List Str) : Str := genNextId asnTag table

/-- One insert into the payments table with the generated primary key. -/
def insertPayment (table : List Str) : List Str := generate_payment_id table :: table

/-- The payments id table after n inserts starting from an empty table. -/
def payTable : Nat → List Str
  | 0 => []
  | n + 1 => insertPayment (payTable n)

/-- Id-table states reachable by repeated inserts from an empty table. -/
inductive ReachIds : List Str → Prop where
  | empty : ReachIds []
  | insert {t : List Str} : ReachIds t → ReachIds (insertPayment t)

/-- A state in which tenant 7 currently occupies room 1 and room 2 is under
maintenance; used to exercise change_room. -/
def exampleChangeState : TState :=
  { rooms := [⟨1, .occupied⟩, ⟨2, .maintenance⟩],
    assignments := [⟨1, 7, 1, ⟨2025, 1, 1⟩, none, none, true, 100⟩] }

/-- A change_room request moving tenant 7 to the maintenance room 2. -/
def exampleChangeReq : ChangeRequest :=
  { new_room := 2, move_out_date := ⟨2025, 6, 1⟩, move_in_date := ⟨2025, 6, 2⟩,
    lease_end_date := none, monthly_rent := 100 }

/-! Theorems. -/

/-- Successful markPaid always returns a payment with status paid. -/
theorem markPaid_ok_status {p p' : Payment} {pd : Option Date} {t : Date} {n : Nat}
    {m : Option PayMethod} {r : Option String} {u : Nat} {no : Option String}
    (h : markPaid p pd t n m r u no = .ok p') : p'.status = .paid := by
  unfold markPaid at h
  split at h
  · exact absurd h (by simp)
  · simp only at h
    split at h
    · cases r with
      | some rr =>
        simp only at h
        split at h
        · cases h; rfl
        · exact absurd h (by simp)
      | none => cases h; rfl
    · exact absurd h (by simp)

/-- C4: change_room ends the old assignment before validating the new one
and does not roll back on failure.  Evaluated at a concrete failing input: in
exampleChangeState, moving tenant 7 to the unavailable room 2 returns a
Conflict error, yet the old assignment is left with is_current = false and
its room flipped back to available. -/
theorem change_room_partial_application :
    (changeRoom exampleChangeState 7 exampleChangeReq).2 = .error .conflict ∧
    lookupAssignment (changeRoom exampleChangeState 7 exampleChangeReq).1 1 =
      some ⟨1, 7, 1, ⟨2025, 1, 1⟩, none, some ⟨2025, 6, 1⟩, false, 100⟩ ∧
    findRoom (changeRoom exampleChangeState 7 exampleChangeReq).1 1 = some ⟨1, .available⟩ :=
  ⟨rfl, rfl, rfl⟩

/-- C5: a paid payment is terminal for the cited operations: once markPaid
succeeds, a second markPaid fails with AlreadyPaid (leaving the stored row as
the first call left it, since the endpoint returns before any mutation),
Payment.cancel fails with AlreadyPaid, and delete_payment refuses to delete
the paid row. -/
theorem paid_payment_terminal {p p' : Payment} {pd : Option Date} {t : Date} {n : Nat}
    {m : Option PayMethod} {r : Option String} {u : Nat} {no : Option String}
    (ps : List Payment) (pd2 : Option Date) (t2 : Date) (n2 : Nat) (m2 : Option PayMethod)
    (r2 : Option String) (u2 : Nat) (no2 no3 : Option String)
    (h : markPaid p pd t n m r u no = .ok p') :
    markPaid p' pd2 t2 n2 m2 r2 u2 no2 = .error .alreadyPaid ∧
    Payment.cancel p' no3 t2 = .error .alreadyPaid ∧
    deletePayment ps p' = .error .precondition := by
  have hs := markPaid_ok_status h
  refine ⟨?_, ?_, ?_⟩
  · unfold markPaid; simp [hs]
  · unfold Payment.cancel; simp [hs]
  · unfold deletePayment; simp [hs]

/-- C5 witness: a concrete pending payment, marked paid, then refused by all
three operations. -/
theorem paid_payment_terminal_witness :
    markPaid ⟨5, 1, 2025, 100, ⟨2025, 1, 5⟩, none, .pending, none, none, none, none, none⟩
        none ⟨2025, 2, 1⟩ 42 none none 9 none =
      .ok ⟨5, 1, 2025, 100, ⟨2025, 1, 5⟩, some ⟨2025, 2, 1⟩, .paid, none, none, none, some 42, some 9⟩ ∧
    (markPaid ⟨5, 1, 2025, 100, ⟨2025, 1, 5⟩, some ⟨2025, 2, 1⟩, .paid, none, none, none, some 42, some 9⟩
        none ⟨2025, 2, 2⟩ 43 none none 9 none = .error .alreadyPaid ∧
     Payment.cancel ⟨5, 1, 2025, 100, ⟨2025, 1, 5⟩, some ⟨2025, 2, 1⟩, .paid, none, none, none, some 42, some 9⟩
        none ⟨2025, 2, 2⟩ = .error .alreadyPaid ∧
     deletePayment [⟨5, 1, 2025, 100, ⟨2025, 1, 5⟩, some ⟨2025, 2, 1⟩, .paid, none, none, none, some 42, some 9⟩]
        ⟨5, 1, 2025, 100, ⟨2025, 1, 5⟩, some ⟨2025, 2, 1⟩, .paid, none, none, none, some 42, some 9⟩ =
       .error .precondition) :=
  ⟨rfl,
   @paid_payment_terminal ⟨5, 1, 2025, 100, ⟨2025, 1, 5⟩, none, .pending, none, none, none, none, none⟩
     ⟨5, 1, 2025, 100, ⟨2025, 1, 5⟩, some ⟨2025, 2, 1⟩, .paid, none, none, none, some 42, some 9⟩
     none ⟨2025, 2, 1⟩ 42 none none 9 none
     [⟨5, 1, 2025, 100, ⟨2025, 1, 5⟩, some ⟨2025, 2, 1⟩, .paid, none, none, none, some 42, some 9⟩]
     none ⟨2025, 2, 2⟩ 43 none none 9 none none rfl⟩

/-- C6 counterexample: the claim that no operation moves a payment from
cancelled to paid is false: the mark-paid endpoint only rejects payments that
are already paid, so it happily marks a cancelled payment as paid. -/
theorem cancelled_to_paid_counterexample :
    (⟨5, 1, 2025, 100, ⟨2025, 1, 5⟩, none, .cancelled, none, none, none, none, none⟩ : Payment).status
      = .cancelled ∧
    markPaid ⟨5, 1, 2025, 100, ⟨2025, 1, 5⟩, none, .cancelled, none, none, none, none, none⟩
        none ⟨2025, 3, 1⟩ 42 none none 9 none =
      .ok ⟨5, 1, 2025, 100, ⟨2025, 1, 5⟩, some ⟨2025, 3, 1⟩, .paid, none, none, none, some 42, some 9⟩ ∧
    (⟨5, 1, 2025, 100, ⟨2025, 1, 5⟩, some ⟨2025, 3, 1⟩, .paid, none, none, none, some 42, some 9⟩ : Payment).status
      = .paid :=
  ⟨rfl, rfl, rfl⟩

/-- C6 amended: the only status regression the billing operations rule out is
paid back to pending: starting from a paid payment, markPaid and cancel fail
outright, and the update serializer never yields a pending payment. -/
theorem updatePayment_ok_status {p p' : Payment} {u : PayUpdate} {t : Date}
    (h : updatePayment p u t = .ok p') : p'.status = u.status.getD p.status := by
  simp only [updatePayment] at h
  split at h
  · exact absurd h (by simp)
  · split at h
    · exact absurd h (by simp)
    · split at h
      · cases h; rfl
      · exact absurd h (by simp)

theorem no_paid_to_pending (p : Payment) (pd : Option Date) (t : Date) (n : Nat)
    (m : Option PayMethod) (r : Option String) (u : Nat) (no : Option String)
    (upd : PayUpdate) (h : p.status = .paid) :
    markPaid p pd t n m r u no = .error .alreadyPaid ∧
    Payment.cancel p no t = .error .alreadyPaid ∧
    (∀ p', updatePayment p upd t = .ok p' → p'.status ≠ .pending) := by
  refine ⟨by unfold markPaid; simp [h], by unfold Payment.cancel; simp [h], ?_⟩
  intro p' hu hpend
  have hst := (updatePayment_ok_status hu).symm.trans hpend
  rw [h] at hst
  have hbad : updatePayment p upd t = .error .invalidInput := by
    unfold updatePayment
    simp [h, hst]
  rw [hbad] at hu
  exact absurd hu (by simp)

/-- C6 amended witness: concrete paid payment; both refusals and the update
non-regression hold. -/
theorem no_paid_to_pending_witness :
    (⟨5, 1, 2025, 100, ⟨2025, 1, 5⟩, some ⟨2025, 1, 6⟩, .paid, none, none, none, some 1, some 9⟩ : Payment).status
      = .paid ∧
    (markPaid ⟨5, 1, 2025, 100, ⟨2025, 1, 5⟩, some ⟨2025, 1, 6⟩, .paid, none, none, none, some 1, some 9⟩
        none ⟨2025, 3, 1⟩ 42 none none 9 none = .error .alreadyPaid ∧
     Payment.cancel ⟨5, 1, 2025, 100, ⟨2025, 1, 5⟩, some ⟨2025, 1, 6⟩, .paid, none, none, none, some 1, some 9⟩
        none ⟨2025, 3, 1⟩ = .error .alreadyPaid ∧
     (∀ p', updatePayment ⟨5, 1, 2025, 100, ⟨2025, 1, 5⟩, some ⟨2025, 1, 6⟩, .paid, none, none, none, some 1, some 9⟩
        ⟨none, some .cancelled, none, none, none⟩ ⟨2025, 3, 1⟩ = .ok p' → p'.status ≠ .pending)) :=
  ⟨rfl, no_paid_to_pending _ none _ 42 none none 9 none _ rfl⟩

/-- C7: marking a complaint resolved without resolution notes, when none are
on file, fails with InvalidInput; with notes supplied or already on file it
succeeds, sets status resolved, stamps resolved_at (freshly whenever the
complaint was not already resolved) and records resolved_by. -/
theorem updateComplaint_resolved_spec (c : Complaint) (notes : Option String) (nowT actor : Nat)
    (hn : strFalsy notes = false ∨ strFalsy c.resolution_notes = false) :
    updateComplaint c ⟨some .resolved, none, none, notes⟩ nowT actor =
      .ok { c with status := .resolved,
                   resolution_notes := (match notes with | some n => some n | none => c.resolution_notes),
                   resolved_at := (if c.status = .resolved then c.resolved_at else some nowT),
                   resolved_by := some actor } := by
  unfold updateComplaint
  have hguard : (((some CStatus.resolved).getD c.status == CStatus.resolved)
      && strFalsy notes && strFalsy c.resolution_notes) = false := by
    rcases hn with h | h <;> simp [h]
  simp only [hguard]
  by_cases hc : c.status = .resolved <;> simp [hc] <;> (cases notes <;> rfl)

theorem mark_resolved_contract (c : Complaint) (notes : Option String) (nowT actor : Nat) :
    (strFalsy notes = true → strFalsy c.resolution_notes = true →
      updateComplaint c ⟨some .resolved, none, none, notes⟩ nowT actor = .error .invalidInput) ∧
    (strFalsy notes = false ∨ strFalsy c.resolution_notes = false →
      ∃ c', updateComplaint c ⟨some .resolved, none, none, notes⟩ nowT actor = .ok c' ∧
        c'.status = .resolved ∧ c'.resolved_by = some actor ∧
        (c.status ≠ .resolved → c'.resolved_at = some nowT) ∧
        (c.status = .resolved → c'.resolved_at = c.resolved_at)) := by
  constructor
  · intro h1 h2
    unfold updateComplaint
    simp [h1, h2]
  · intro hnotes
    refine ⟨_, updateComplaint_resolved_spec c notes nowT actor hnotes, rfl, rfl, ?_, ?_⟩
    · intro hc
      simp [hc]
    · intro hc
      simp [hc]

/-- C7 witness: an open complaint with no notes on file is refused without
notes and resolved with them. -/
theorem mark_resolved_contract_witness :
    updateComplaint ⟨.«open», 1, 1, none, none, none⟩ ⟨some .resolved, none, none, none⟩ 5 1
      = .error .invalidInput ∧
    updateComplaint ⟨.«open», 1, 1, none, none, none⟩ ⟨some .resolved, none, none, some "done"⟩ 5 1
      = .ok ⟨.resolved, 1, 1, some "done", some 5, some 1⟩ :=
  ⟨(mark_resolved_contract ⟨.«open», 1, 1, none, none, none⟩ none 5 1).1 rfl rfl, rfl⟩

/-- C8 counterexample: the claim that no complaint operation moves a resolved
or closed complaint back to open or in_progress is false: the admin status
update sets any requested status, so it moves a resolved complaint back to
open. -/
theorem resolved_to_open_counterexample :
    (⟨.resolved, 1, 1, some "fixed", some 5, some 2⟩ : Complaint).status = .resolved ∧
    updateComplaint ⟨.resolved, 1, 1, some "fixed", some 5, some 2⟩ ⟨some .«open», none, none, none⟩ 9 1
      = .ok ⟨.«open», 1, 1, some "fixed", some 5, some 2⟩ ∧
    (⟨.«open», 1, 1, some "fixed", some 5, some 2⟩ : Complaint).status = .«open» :=
  ⟨rfl, rfl, rfl⟩

/-- C8 amended: the workflow helper methods never move a resolved or closed
complaint backward: mark_as_resolved refuses such complaints, and close
refuses closed ones and only moves a resolved one forward to closed (the
admin status update, by contrast, can set any status). -/
theorem complaint_helpers_no_regress (c : Complaint) (notes : Option String)
    (resolver : Option Nat) (nowT : Nat) (h : c.status = .resolved ∨ c.status = .closed) :
    Complaint.mark_as_resolved c notes resolver nowT = none ∧
    (c.status = .closed → Complaint.close c nowT = none) ∧
    (c.status = .resolved → Complaint.close c nowT =
      some { c with status := .closed,
                    resolved_at := (match c.resolved_at with | some t => some t | none => some nowT) }) := by
  refine ⟨?_, ?_, ?_⟩
  · unfold Complaint.mark_as_resolved
    rcases h with h | h <;> simp [h]
  · intro hc
    unfold Complaint.close
    simp [hc]
  · intro hc
    unfold Complaint.close
    simp [hc]

/-- C8 amended witness: a concrete resolved complaint. -/
theorem complaint_helpers_no_regress_witness :
    ((⟨.resolved, 1, 1, some "x", some 3, some 2⟩ : Complaint).status = .resolved ∨
      (⟨.resolved, 1, 1, some "x", some 3, some 2⟩ : Complaint).status = .closed) ∧
    (Complaint.mark_as_resolved ⟨.resolved, 1, 1, some "x", some 3, some 2⟩ none none 7 = none ∧
     ((⟨.resolved, 1, 1, some "x", some 3, some 2⟩ : Complaint).status = .closed →
        Complaint.close ⟨.resolved, 1, 1, some "x", some 3, some 2⟩ 7 = none) ∧
     ((⟨.resolved, 1, 1, some "x", some 3, some 2⟩ : Complaint).status = .resolved →
        Complaint.close ⟨.resolved, 1, 1, some "x", some 3, some 2⟩ 7 =
          some { (⟨.resolved, 1, 1, some "x", some 3, some 2⟩ : Complaint) with
                   status := .closed,
                   resolved_at := (match (⟨.resolved, 1, 1, some "x", some 3, some 2⟩ : Complaint).resolved_at with
                                   | some t => some t | none => some 7) })) :=
  ⟨Or.inl rfl, complaint_helpers_no_regress _ none none 7 (Or.inl rfl)⟩

/-- The payment generated for an assignment passes Payment.clean whenever the
period is well-formed and the rent is positive. -/
theorem mk_cleanOk {a : Assignment} {m y dd : Nat} {todayD : Date}
    (hm1 : 1 ≤ m) (hm2 : m ≤ 12) (hy1 : 2000 ≤ y) (hy2 : y ≤ 2100)
    (hr : 0 < a.monthly_rent) :
    (mkMonthlyPayment a m y dd).cleanOk todayD = true := by
  unfold mkMonthlyPayment Payment.cleanOk
  simp [hm1, hm2, hy1, hy2, hr]

/-- hasPayment is monotone under table growth. -/
theorem hasPayment_mono {ps ps' : List Payment} {t m y : Nat}
    (hsub : ∀ p, p ∈ ps → p ∈ ps') (h : hasPayment ps t m y = true) :
    hasPayment ps' t m y = true := by
  simp only [hasPayment, List.any_eq_true] at h ⊢
  obtain ⟨p, hp, hc⟩ := h
  exact ⟨p, hsub p hp, hc⟩

/-- Behaviour of the generation loop: it succeeds, only grows the table,
creates exactly the pending payments of assignments whose tenant had no
payment for the period, and afterwards every processed assignment has a
payment for the period. -/
theorem generateLoop_spec (m y dd : Nat) (todayD : Date)
    (hm1 : 1 ≤ m) (hm2 : m ≤ 12) (hy1 : 2000 ≤ y) (hy2 : y ≤ 2100) :
    ∀ (al : List Assignment) (ps : List Payment),
      (∀ a ∈ al, 0 < a.monthly_rent) →
      ∃ ps' created skipped,
        generateLoop m y dd todayD al ps = .ok (ps', created, skipped) ∧
        (∀ p, p ∈ ps → p ∈ ps') ∧
        (∀ p, p ∈ created → ∃ a, a ∈ al ∧ p = mkMonthlyPayment a m y dd) ∧
        (∀ p, p ∈ created → hasPayment ps p.tenant m y = false) ∧
        (∀ a, a ∈ al → hasPayment ps' a.tenant m y = true) := by
  intro al
  induction al with
  | nil =>
    intro ps _
    exact ⟨ps, [], [], rfl, fun p hp => hp, by simp, by simp, by simp⟩
  | cons a rest ih =>
    intro ps hrent
    by_cases hskip : hasPayment ps a.tenant m y = true
    · obtain ⟨ps', created, skipped, heq, hsub, hcre, hfresh, hall⟩ :=
        ih ps (fun b hb => hrent b (List.mem_cons_of_mem _ hb))
      refine ⟨ps', created, a.tenant :: skipped, ?_, hsub, ?_, hfresh, ?_⟩
      · unfold generateLoop
        simp [hskip, heq]
      · intro p hp
        obtain ⟨b, hb, hpb⟩ := hcre p hp
        exact ⟨b, List.mem_cons_of_mem _ hb, hpb⟩
      · intro b hb
        rcases List.mem_cons.mp hb with hba | hbr
        · subst hba; exact hasPayment_mono hsub hskip
        · exact hall b hbr
    · have hclean : (mkMonthlyPayment a m y dd).cleanOk todayD = true :=
        mk_cleanOk hm1 hm2 hy1 hy2 (hrent a (List.mem_cons_self _ _))
      obtain ⟨ps', created, skipped, heq, hsub, hcre, hfresh, hall⟩ :=
        ih (mkMonthlyPayment a m y dd :: ps) (fun b hb => hrent b (List.mem_cons_of_mem _ hb))
      refine ⟨ps', mkMonthlyPayment a m y dd :: created, skipped, ?_, ?_, ?_, ?_, ?_⟩
      · unfold generateLoop
        simp [hskip, hclean, heq]
      · intro p hp
        exact hsub p (List.mem_cons_of_mem _ hp)
      · intro p hp
        rcases List.mem_cons.mp hp with h1 | h1
        · exact ⟨a, List.mem_cons_self _ _, h1⟩
        · obtain ⟨b, hb, hpb⟩ := hcre p h1
          exact ⟨b, List.mem_cons_of_mem _ hb, hpb⟩
      · intro p hp
        rcases List.mem_cons.mp hp with h1 | h1
        · subst h1
          simpa [mkMonthlyPayment] using hskip
        · have hf := hfresh p h1
          simp only [hasPayment, List.any_cons, Bool.or_eq_false_iff] at hf
          simpa [hasPayment] using hf.2
      · intro b hb
        rcases List.mem_cons.mp hb with h1 | h1
        · subst h1
          exact hasPayment_mono hsub (by simp [hasPayment, mkMonthlyPayment])
        · exact hall b h1

/-- When every assignment in the list already has a payment for the period,
the loop creates nothing and skips every tenant. -/
theorem generateLoop_skips (m y dd : Nat) (todayD : Date) :
    ∀ (al : List Assignment) (ps : List Payment),
      (∀ a ∈ al, hasPayment ps a.tenant m y = true) →
      generateLoop m y dd todayD al ps = .ok (ps, [], al.map fun a => a.tenant) := by
  intro al
  induction al with
  | nil => intro ps _; rfl
  | cons a rest ih =>
    intro ps hall
    have hskip : hasPayment ps a.tenant m y = true := hall a (List.mem_cons_self _ _)
    unfold generateLoop
    simp [hskip, ih ps (fun b hb => hall b (List.mem_cons_of_mem _ hb))]

/-- C3: generating the payments of a period succeeds; every created payment
is pending, has the assignment rent as amount and the (clamped) due day as
due date; a tenant who already has a payment for the period gets no new
payment; and a second back-to-back run creates zero payments and leaves the
table unchanged. -/
theorem generate_period_correct (s : TState) (ps : List Payment) (m y dd : Nat) (todayD : Date)
    (hm1 : 1 ≤ m) (hm2 : m ≤ 12) (hdd1 : 1 ≤ dd) (hdd2 : dd ≤ 31)
    (hy1 : 2000 ≤ y) (hy2 : y ≤ 2100)
    (hrent : ∀ a ∈ s.assignments, a.is_current = true → 0 < a.monthly_rent) :
    ∃ ps' created skipped,
      generateMonthlyPayments s ps m y dd todayD = .ok (ps', created, skipped) ∧
      (∀ p ∈ created, p.status = .pending ∧ p.due_date = dueDateFor y m dd ∧
        p.payment_period_month = m ∧ p.payment_period_year = y ∧
        ∃ a ∈ s.assignments, a.is_current = true ∧ p.tenant = a.tenant ∧ p.amount = a.monthly_rent) ∧
      (∀ p ∈ created, hasPayment ps p.tenant m y = false) ∧
      generateMonthlyPayments s ps' m y dd todayD =
        .ok (ps', [], (s.assignments.filter fun a => a.is_current).map fun a => a.tenant) := by
  have hv1 : ¬(m < 1 || 12 < m) = true := by simp; omega
  have hv2 : ¬(dd < 1 || 31 < dd) = true := by simp; omega
  have hrent' : ∀ a ∈ (s.assignments.filter fun a => a.is_current), 0 < a.monthly_rent := by
    intro a ha
    have := List.mem_filter.mp ha
    exact hrent a this.1 this.2
  obtain ⟨ps', created, skipped, heq, hsub, hcre, hfresh, hall⟩ :=
    generateLoop_spec m y dd todayD hm1 hm2 hy1 hy2 (s.assignments.filter fun a => a.is_current) ps hrent'
  refine ⟨ps', created, skipped, ?_, ?_, hfresh, ?_⟩
  · unfold generateMonthlyPayments
    rw [if_neg hv1, if_neg hv2]
    exact heq
  · intro p hp
    obtain ⟨a, ha, hpa⟩ := hcre p hp
    have hmem := List.mem_filter.mp ha
    subst hpa
    exact ⟨rfl, rfl, rfl, rfl, a, hmem.1, hmem.2, rfl, rfl⟩
  · unfold generateMonthlyPayments
    rw [if_neg hv1, if_neg hv2]
    exact generateLoop_skips m y dd todayD _ ps' hall

/-- C3 witness: one current assignment with rent 500, February 2025 with due
day 31; generation succeeds and the clamped due date is 2025-02-28. -/
theorem generate_period_correct_witness :
    (∀ a ∈ (TState.mk [⟨1, .occupied⟩] [⟨1, 7, 1, ⟨2025, 1, 1⟩, none, none, true, 500⟩]).assignments,
      a.is_current = true → 0 < a.monthly_rent) ∧
    dueDateFor 2025 2 31 = ⟨2025, 2, 28⟩ ∧
    (∃ ps' created skipped,
      generateMonthlyPayments (TState.mk [⟨1, .occupied⟩] [⟨1, 7, 1, ⟨2025, 1, 1⟩, none, none, true, 500⟩])
          [] 2 2025 31 ⟨2025, 2, 1⟩ = .ok (ps', created, skipped) ∧
      (∀ p ∈ created, p.status = .pending ∧ p.due_date = dueDateFor 2025 2 31 ∧
        p.payment_period_month = 2 ∧ p.payment_period_year = 2025 ∧
        ∃ a ∈ (TState.mk [⟨1, .occupied⟩] [⟨1, 7, 1, ⟨2025, 1, 1⟩, none, none, true, 500⟩]).assignments,
          a.is_current = true ∧ p.tenant = a.tenant ∧ p.amount = a.monthly_rent) ∧
      (∀ p ∈ created, hasPayment [] p.tenant 2 2025 = false) ∧
      generateMonthlyPayments (TState.mk [⟨1, .occupied⟩] [⟨1, 7, 1, ⟨2025, 1, 1⟩, none, none, true, 500⟩])
          ps' 2 2025 31 ⟨2025, 2, 1⟩ =
        .ok (ps', [], ((TState.mk [⟨1, .occupied⟩] [⟨1, 7, 1, ⟨2025, 1, 1⟩, none, none, true, 500⟩]).assignments.filter
            fun a => a.is_current).map fun a => a.tenant)) :=
  ⟨by decide, rfl,
   generate_period_correct _ [] 2 2025 31 ⟨2025, 2, 1⟩ (by decide) (by decide) (by decide)
     (by decide) (by decide) (by decide) (by decide)⟩

/-- Two distinct members both satisfying a predicate force a count of at
least two. -/
theorem two_le_countP {α : Type} {p : α → Bool} {l : List α} {a b : α}
    (ha : a ∈ l) (hb : b ∈ l) (hab : a ≠ b) (hpa : p a = true) (hpb : p b = true) :
    2 ≤ l.countP p := by
  induction l with
  | nil => cases ha
  | cons c cs ih =>
    rcases List.mem_cons.mp ha with rfl | ha'
    · rcases List.mem_cons.mp hb with rfl | hb'
      · exact absurd rfl hab
      · have h1 : 0 < cs.countP p := List.countP_pos_iff.mpr ⟨b, hb', hpb⟩
        rw [List.countP_cons_of_pos _ _ hpa]
        omega
    · rcases List.mem_cons.mp hb with rfl | hb'
      · have h1 : 0 < cs.countP p := List.countP_pos_iff.mpr ⟨a, ha', hpa⟩
        rw [List.countP_cons_of_pos _ _ hpb]
        omega
      · have := ih ha' hb'
        rw [List.countP_cons]
        omega

/-- Successful save decomposes into a passing clean check and the
insert-or-replace of the row. -/
theorem saveAssignment_ok {s s' : TState} {a : Assignment}
    (h : saveAssignment s a = .ok s') :
    cleanCheck s a = .ok () ∧
    s' = { s with assignments := a :: s.assignments.filter fun b => b.id != a.id } := by
  unfold saveAssignment at h
  cases hc : cleanCheck s a with
  | error e => rw [hc] at h; exact absurd h (by simp)
  | ok u =>
    rw [hc] at h
    cases u
    simp only [Except.ok.injEq] at h
    exact ⟨rfl, h.symm⟩

/-- The four checks of a passing clean. -/
theorem cleanCheck_ok {s : TState} {a : Assignment} (h : cleanCheck s a = .ok ()) :
    (a.is_current && (s.assignments.any fun b => b.id != a.id && b.room == a.room && b.is_current)) = false ∧
    (a.is_current && (s.assignments.any fun b => b.id != a.id && b.tenant == a.tenant && b.is_current)) = false ∧
    (match a.move_out_date with | some d => Date.ltb d a.move_in_date | none => false) = false ∧
    badLeaseDate a.move_in_date a.lease_end_date = false := by
  unfold cleanCheck at h
  split_ifs at h with h1 h2 h3 h4
  exact ⟨Bool.eq_false_iff.mpr h1, Bool.eq_false_iff.mpr h2,
    Bool.eq_false_iff.mpr h3, Bool.eq_false_iff.mpr h4⟩

/-- Inserting a row whose predicate-mates were all excluded keeps a count
bounded by one. -/
theorem countP_save_le {l : List Assignment} {a : Assignment} {p : Assignment → Bool}
    (hinv : l.countP p ≤ 1)
    (hcl : p a = true → ∀ b ∈ l, b.id ≠ a.id → p b = false) :
    ((a :: l.filter fun b => b.id != a.id).countP p) ≤ 1 := by
  by_cases hp : p a = true
  · have hzero : (l.filter fun b => b.id != a.id).countP p = 0 := by
      apply List.countP_eq_zero.mpr
      intro b hb
      have hmem := List.mem_filter.mp hb
      have hid : b.id ≠ a.id := by simpa using hmem.2
      simp [hcl hp b hmem.1 hid]
    rw [List.countP_cons_of_pos _ _ hp, hzero]
  · rw [List.countP_cons_of_neg _ _ hp]
    exact le_trans ((List.filter_sublist _).countP_le _) hinv

/-- Room status updates do not touch the assignment table. -/
theorem roomCount_setRoomStatus (s : TState) (r : Nat) (st : RoomStatus) (rid : Nat) :
    roomCount (setRoomStatus s r st) rid = roomCount s rid := rfl

theorem tenantCount_setRoomStatus (s : TState) (r : Nat) (st : RoomStatus) (tid : Nat) :
    tenantCount (setRoomStatus s r st) tid = tenantCount s tid := rfl

/-- save preserves the per-room bound. -/
theorem save_room_le {s s' : TState} {a : Assignment} (h : saveAssignment s a = .ok s')
    (hinv : ∀ rid, roomCount s rid ≤ 1) : ∀ rid, roomCount s' rid ≤ 1 := by
  obtain ⟨hclean, hs'⟩ := saveAssignment_ok h
  intro rid
  subst hs'
  apply countP_save_le (hinv rid)
  intro hpa b hb hbid
  rcases Bool.and_eq_true_iff.mp hpa with ⟨har, hac⟩
  show (b.room == rid && b.is_current) = false
  by_contra hpb
  have hpb' : (b.room == rid && b.is_current) = true := by
    cases hx : (b.room == rid && b.is_current) with
    | false => exact absurd hx hpb
    | true => rfl
  rcases Bool.and_eq_true_iff.mp hpb' with ⟨hbr, hbc⟩
  have hany : (s.assignments.any fun c => c.id != a.id && c.room == a.room && c.is_current) = true := by
    refine List.any_eq_true.mpr ⟨b, hb, ?_⟩
    have har' : a.room = rid := eq_of_beq har
    have hbr' : b.room = rid := eq_of_beq hbr
    simp [hbid, hbc, har', hbr']
  have := (cleanCheck_ok hclean).1
  rw [hac, hany] at this
  simp at this

/-- save preserves the per-tenant bound. -/
theorem save_tenant_le {s s' : TState} {a : Assignment} (h : saveAssignment s a = .ok s')
    (hinv : ∀ tid, tenantCount s tid ≤ 1) : ∀ tid, tenantCount s' tid ≤ 1 := by
  obtain ⟨hclean, hs'⟩ := saveAssignment_ok h
  intro tid
  subst hs'
  apply countP_save_le (hinv tid)
  intro hpa b hb hbid
  rcases Bool.and_eq_true_iff.mp hpa with ⟨hat, hac⟩
  show (b.tenant == tid && b.is_current) = false
  by_contra hpb
  have hpb' : (b.tenant == tid && b.is_current) = true := by
    cases hx : (b.tenant == tid && b.is_current) with
    | false => exact absurd hx hpb
    | true => rfl
  rcases Bool.and_eq_true_iff.mp hpb' with ⟨hbt, hbc⟩
  have hany : (s.assignments.any fun c => c.id != a.id && c.tenant == a.tenant && c.is_current) = true := by
    refine List.any_eq_true.mpr ⟨b, hb, ?_⟩
    have hat' : a.tenant = tid := eq_of_beq hat
    have hbt' : b.tenant = tid := eq_of_beq hbt
    simp [hbid, hbc, hat', hbt']
  have := (cleanCheck_ok hclean).2.1
  rw [hac, hany] at this
  simp at this

/-- The date checks of clean, rephrased as datesOk. -/
theorem datesOk_of_cleanCheck {s : TState} {a : Assignment} (h : cleanCheck s a = .ok ()) :
    datesOk a = true := by
  obtain ⟨_, _, h3, h4⟩ := cleanCheck_ok h
  unfold datesOk
  unfold badLeaseDate at h4
  revert h3 h4
  cases a.move_out_date <;> cases a.lease_end_date <;> intro h3 h4 <;> simp_all

/-- save preserves the date invariant. -/
theorem save_dates {s s' : TState} {a : Assignment} (h : saveAssignment s a = .ok s')
    (hinv : DatesInv s) : DatesInv s' := by
  obtain ⟨hclean, hs'⟩ := saveAssignment_ok h
  subst hs'
  intro b hb
  rcases List.mem_cons.mp hb with rfl | hb'
  · exact datesOk_of_cleanCheck hclean
  · exact hinv b (List.mem_filter.mp hb').1

/-- Combined reachability invariant. -/
def StateInv (s : TState) : Prop := ExclusivityInv s ∧ DatesInv s

theorem save_inv {s s' : TState} {a : Assignment} (h : saveAssignment s a = .ok s')
    (hinv : StateInv s) : StateInv s' :=
  ⟨⟨save_room_le h hinv.1.1, save_tenant_le h hinv.1.2⟩, save_dates h hinv.2⟩

theorem setRoomStatus_inv {s : TState} (r : Nat) (st : RoomStatus)
    (hinv : StateInv s) : StateInv (setRoomStatus s r st) := hinv

/-- Successful assignRoom decomposes into a successful inner save followed by
a room status update. -/
theorem assignRoom_ok {s s' : TState} {req : AssignRequest} {a : Assignment}
    (h : assignRoom s req = .ok (s', a)) :
    ∃ s1, saveAssignment s a = .ok s1 ∧ s' = setRoomStatus s1 req.room .occupied := by
  unfold assignRoom at h
  split at h
  · exact absurd h (by simp)
  · split at h
    · exact absurd h (by simp)
    · split at h
      · exact absurd h (by simp)
      · split at h
        · exact absurd h (by simp)
        · split at h
          · exact absurd h (by simp)
          · simp only at h
            split at h
            · exact absurd h (by simp)
            · rename_i s1 hs1
              simp only [Except.ok.injEq, Prod.mk.injEq] at h
              obtain ⟨hseq, haeq⟩ := h
              subst haeq
              exact ⟨s1, hs1, hseq.symm⟩

theorem assignRoom_inv {s s' : TState} {req : AssignRequest} {a : Assignment}
    (h : assignRoom s req = .ok (s', a)) (hinv : StateInv s) : StateInv s' := by
  obtain ⟨s1, hsave, hs'⟩ := assignRoom_ok h
  subst hs'
  exact setRoomStatus_inv _ _ (save_inv hsave hinv)

/-- Successful endAssignment decomposes likewise. -/
theorem endAssignment_ok {s s' : TState} {aid : Nat} {d : Date}
    (h : endAssignment s aid d = .ok s') :
    ∃ a s1, lookupAssignment s aid = some a ∧
      saveAssignment s { a with is_current := false, move_out_date := some d } = .ok s1 ∧
      s' = setRoomStatus s1 a.room .available := by
  unfold endAssignment at h
  split at h
  · exact absurd h (by simp)
  · rename_i a hla
    split at h
    · exact absurd h (by simp)
    · rename_i s1 hs1
      simp only [Except.ok.injEq] at h
      exact ⟨a, s1, hla, hs1, h.symm⟩

theorem endAssignment_inv {s s' : TState} {aid : Nat} {d : Date}
    (h : endAssignment s aid d = .ok s') (hinv : StateInv s) : StateInv s' := by
  obtain ⟨a, s1, _, hsave, hs'⟩ := endAssignment_ok h
  subst hs'
  exact setRoomStatus_inv _ _ (save_inv hsave hinv)

/-- The state left behind by change_room is the original state, the state
after only the end step, or the state after both steps. -/
theorem changeRoom_state (s : TState) (tid : Nat) (req : ChangeRequest) :
    (changeRoom s tid req).1 = s ∨
    (∃ aid s1, endAssignment s aid req.move_out_date = .ok s1 ∧ (changeRoom s tid req).1 = s1) ∨
    (∃ aid s1 areq s2 na, endAssignment s aid req.move_out_date = .ok s1 ∧
      assignRoom s1 areq = .ok (s2, na) ∧ (changeRoom s tid req).1 = s2) := by
  cases hc : currentAssignmentOf s tid with
  | none =>
    have key : changeRoom s tid req = (s, .error .precondition) := by
      unfold changeRoom; rw [hc]
    rw [key]; exact Or.inl rfl
  | some cur =>
    cases hr : findRoom s req.new_room with
    | none =>
      have key : changeRoom s tid req = (s, .error .notFound) := by
        unfold changeRoom; rw [hc, hr]
      rw [key]; exact Or.inl rfl
    | some room =>
      cases hsame : (cur.room == req.new_room) with
      | true =>
        have key : changeRoom s tid req = (s, .error .precondition) := by
          unfold changeRoom; rw [hc, hr]; dsimp only; rw [hsame]; rfl
        rw [key]; exact Or.inl rfl
      | false =>
        cases he : endAssignment s cur.id req.move_out_date with
        | error e =>
          have key : changeRoom s tid req = (s, .error e) := by
            unfold changeRoom; rw [hc, hr]; dsimp only; rw [hsame, he]; rfl
          rw [key]; exact Or.inl rfl
        | ok s1 =>
          cases ha : assignRoom s1
              { tenant := tid, room := req.new_room, move_in_date := req.move_in_date,
                lease_end_date := req.lease_end_date, monthly_rent := req.monthly_rent } with
          | error e =>
            have key : changeRoom s tid req = (s1, .error e) := by
              unfold changeRoom; rw [hc, hr]; dsimp only; rw [hsame, he]; dsimp only; rw [ha]; rfl
            rw [key]
            exact Or.inr (Or.inl ⟨cur.id, s1, he, rfl⟩)
          | ok pa =>
            obtain ⟨s2, na⟩ := pa
            have key : changeRoom s tid req =
                (s2, .ok ({ cur with is_current := false, move_out_date := some req.move_out_date }, na)) := by
              unfold changeRoom; rw [hc, hr]; dsimp only; rw [hsame, he]; dsimp only; rw [ha]; rfl
            rw [key]
            exact Or.inr (Or.inr ⟨cur.id, s1, _, s2, na, he, ha, rfl⟩)

theorem changeRoom_inv {s : TState} {tid : Nat} {req : ChangeRequest}
    (hinv : StateInv s) : StateInv (changeRoom s tid req).1 := by
  rcases changeRoom_state s tid req with h | ⟨aid, s1, he, h⟩ | ⟨aid, s1, areq, s2, na, he, ha, h⟩
  · rw [h]; exact hinv
  · rw [h]; exact endAssignment_inv he hinv
  · rw [h]; exact assignRoom_inv ha (endAssignment_inv he hinv)

/-- Every reachable state satisfies the combined invariant. -/
theorem reach_inv {s : TState} (h : Reach s) : StateInv s := by
  induction h with
  | init rooms =>
    refine ⟨⟨fun rid => ?_, fun tid => ?_⟩, fun a ha => ?_⟩
    · simp [roomCount]
    · simp [tenantCount]
    · cases ha
  | save _ hs ih => exact save_inv hs ih
  | assign _ ha ih => exact assignRoom_inv ha ih
  | endA _ he ih => exact endAssignment_inv he ih
  | change _ ih => exact changeRoom_inv ih

/-- C1: in every state reachable by the ledger operations, at most one
current assignment references any given room, and at most one current
assignment references any given tenant. -/
theorem assignment_exclusivity_invariant (s : TState) (h : Reach s) : ExclusivityInv s :=
  (reach_inv h).1

/-- Every member of a list is bounded by the fold of max. -/
theorem le_foldr_max {x : Nat} {l : List Nat} (h : x ∈ l) : x ≤ l.foldr max 0 := by
  induction l with
  | nil => cases h
  | cons c cs ih =>
    rcases List.mem_cons.mp h with rfl | h'
    · exact Nat.le_max_left _ _
    · exact le_trans (ih h') (Nat.le_max_right _ _)

/-- The generated assignment key is fresh. -/
theorem id_ne_nextAssignmentId {s : TState} {b : Assignment} (hb : b ∈ s.assignments) :
    b.id ≠ nextAssignmentId s := by
  have : b.id ≤ (s.assignments.map fun a => a.id).foldr max 0 :=
    le_foldr_max (List.mem_map.mpr ⟨b, hb, rfl⟩)
  unfold nextAssignmentId
  omega

/-- An any over a weaker predicate is false when the any over the stronger
one is. -/
theorem any_imp_false {l : List Assignment} (p q : Assignment → Bool)
    (himp : ∀ b, q b = true → p b = true) (h : l.any p = false) : l.any q = false := by
  rw [List.any_eq_false] at h ⊢
  intro b hb hq
  exact h b hb (himp b hq)

/-- find? after the status update of the found room. -/
theorem find?_set_room {l : List Room} {rid : Nat} {room : Room} (st : RoomStatus)
    (h : l.find? (fun r => r.id == rid) = some room) :
    (l.map fun r => if r.id == rid then { r with status := st } else r).find?
      (fun r => r.id == rid) = some { room with status := st } := by
  induction l with
  | nil => simp at h
  | cons c cs ih =>
    rw [List.find?_cons] at h
    rw [List.map_cons, List.find?_cons]
    cases hc : (c.id == rid) with
    | true =>
      rw [hc] at h
      injection h with h2
      subst room
      simp [hc]
    | false =>
      rw [hc] at h
      simp only [hc, Bool.false_eq_true, if_false]
      exact ih h

/-- findRoom after setRoomStatus of the same room. -/
theorem findRoom_setRoomStatus_self {s : TState} {rid : Nat} {room : Room} (st : RoomStatus)
    (h : findRoom s rid = some room) :
    findRoom (setRoomStatus s rid st) rid = some { room with status := st } :=
  find?_set_room st h

/-- The successful branch of assignRoom, fully evaluated. -/
theorem assignRoom_success (s : TState) (req : AssignRequest) (room : Room)
    (hr : findRoom s req.room = some room)
    (h1 : roomHasCurrent s req.room = false)
    (h2 : tenantHasCurrent s req.tenant = false)
    (h3 : badLeaseDate req.move_in_date req.lease_end_date = false)
    (h4 : room.status = .available) :
    assignRoom s req = .ok
      (setRoomStatus
        { s with assignments :=
            { id := nextAssignmentId s, tenant := req.tenant, room := req.room,
              move_in_date := req.move_in_date, lease_end_date := req.lease_end_date,
              move_out_date := none, is_current := true, monthly_rent := req.monthly_rent }
              :: s.assignments }
        req.room .occupied,
       { id := nextAssignmentId s, tenant := req.tenant, room := req.room,
         move_in_date := req.move_in_date, lease_end_date := req.lease_end_date,
         move_out_date := none, is_current := true, monthly_rent := req.monthly_rent }) := by
  have hany1 : (s.assignments.any fun b =>
      b.id != nextAssignmentId s && b.room == req.room && b.is_current) = false := by
    refine any_imp_false (fun b => b.room == req.room && b.is_current) _ ?_ h1
    intro b hq
    rcases Bool.and_eq_true_iff.mp hq with ⟨hq1, hq2⟩
    rcases Bool.and_eq_true_iff.mp hq1 with ⟨_, hq3⟩
    simp [hq2, hq3]
  have hany2 : (s.assignments.any fun b =>
      b.id != nextAssignmentId s && b.tenant == req.tenant && b.is_current) = false := by
    refine any_imp_false (fun b => b.tenant == req.tenant && b.is_current) _ ?_ h2
    intro b hq
    rcases Bool.and_eq_true_iff.mp hq with ⟨hq1, hq2⟩
    rcases Bool.and_eq_true_iff.mp hq1 with ⟨_, hq3⟩
    simp [hq2, hq3]
  have hclean : cleanCheck s
      { id := nextAssignmentId s, tenant := req.tenant, room := req.room,
        move_in_date := req.move_in_date, lease_end_date := req.lease_end_date,
        move_out_date := none, is_current := true, monthly_rent := req.monthly_rent } = .ok () := by
    unfold cleanCheck
    simp [hany1, hany2, h3]
  have hfil : (s.assignments.filter fun b => b.id != nextAssignmentId s) = s.assignments := by
    apply List.filter_eq_self.mpr
    intro b hb
    simp [id_ne_nextAssignmentId hb]
  have hsave : saveAssignment s
      { id := nextAssignmentId s, tenant := req.tenant, room := req.room,
        move_in_date := req.move_in_date, lease_end_date := req.lease_end_date,
        move_out_date := none, is_current := true, monthly_rent := req.monthly_rent } = .ok
      { s with assignments :=
          { id := nextAssignmentId s, tenant := req.tenant, room := req.room,
            move_in_date := req.move_in_date, lease_end_date := req.lease_end_date,
            move_out_date := none, is_current := true, monthly_rent := req.monthly_rent }
            :: s.assignments } := by
    unfold saveAssignment
    rw [hclean]
    dsimp only
    rw [hfil]
  have hbne : (room.status != RoomStatus.available) = false := by simp [h4]
  unfold assignRoom
  rw [hr]
  dsimp only
  rw [h1, h2, h3, hbne, hsave]
  rfl

/-- C2 counterexample: the claim routes every not-available room through
Conflict, but the serializer checks the lease date first: with an unoccupied
maintenance room and lease_end_date before move_in_date the call returns
InvalidDate, not Conflict. -/
theorem assign_room_error_order_counterexample :
    roomHasCurrent ⟨[⟨2, .maintenance⟩], []⟩ 2 = false ∧
    tenantHasCurrent ⟨[⟨2, .maintenance⟩], []⟩ 7 = false ∧
    findRoom ⟨[⟨2, .maintenance⟩], []⟩ 2 = some ⟨2, .maintenance⟩ ∧
    assignRoom ⟨[⟨2, .maintenance⟩], []⟩ ⟨7, 2, ⟨2025, 1, 10⟩, some ⟨2025, 1, 5⟩, 100⟩
      = .error .invalidDate ∧
    LedgerError.invalidDate ≠ LedgerError.conflict :=
  ⟨rfl, rfl, rfl, rfl, by decide⟩

/-- C2 amended: the AssignRoom error contract in the order the serializer
checks: Conflict when the room or (else) the tenant has a current assignment;
else InvalidDate when lease_end_date precedes move_in_date; else Conflict
when the room is not available; otherwise success, creating a current
assignment with the requested rent and flipping the room to occupied. -/
theorem assign_room_contract (s : TState) (req : AssignRequest) (room : Room)
    (hr : findRoom s req.room = some room) :
    (roomHasCurrent s req.room = true → assignRoom s req = .error .conflict) ∧
    (roomHasCurrent s req.room = false → tenantHasCurrent s req.tenant = true →
      assignRoom s req = .error .conflict) ∧
    (roomHasCurrent s req.room = false → tenantHasCurrent s req.tenant = false →
      badLeaseDate req.move_in_date req.lease_end_date = true →
      assignRoom s req = .error .invalidDate) ∧
    (roomHasCurrent s req.room = false → tenantHasCurrent s req.tenant = false →
      badLeaseDate req.move_in_date req.lease_end_date = false → room.status ≠ .available →
      assignRoom s req = .error .conflict) ∧
    (roomHasCurrent s req.room = false → tenantHasCurrent s req.tenant = false →
      badLeaseDate req.move_in_date req.lease_end_date = false → room.status = .available →
      ∃ s' a, assignRoom s req = .ok (s', a) ∧ a.is_current = true ∧
        a.tenant = req.tenant ∧ a.room = req.room ∧ a.monthly_rent = req.monthly_rent ∧
        s'.assignments = a :: s.assignments ∧
        findRoom s' req.room = some { room with status := .occupied }) := by
  refine ⟨?_, ?_, ?_, ?_, ?_⟩
  · intro h1
    unfold assignRoom
    rw [hr]
    dsimp only
    rw [h1]
    rfl
  · intro h1 h2
    unfold assignRoom
    rw [hr]
    dsimp only
    rw [h1, h2]
    rfl
  · intro h1 h2 h3
    unfold assignRoom
    rw [hr]
    dsimp only
    rw [h1, h2, h3]
    rfl
  · intro h1 h2 h3 h4
    have hbne : (room.status != RoomStatus.available) = true := by simp [h4]
    unfold assignRoom
    rw [hr]
    dsimp only
    rw [h1, h2, h3, hbne]
    rfl
  · intro h1 h2 h3 h4
    refine ⟨_, _, assignRoom_success s req room hr h1 h2 h3 h4, rfl, rfl, rfl, rfl, rfl, ?_⟩
    exact findRoom_setRoomStatus_self .occupied hr

/-- C2 amended witness: assigning tenant 7 to the free available room 1
succeeds with the stated effects. -/
theorem assign_room_contract_witness :
    findRoom ⟨[⟨1, .available⟩], []⟩ 1 = some ⟨1, .available⟩ ∧
    (∃ s' a, assignRoom ⟨[⟨1, .available⟩], []⟩ ⟨7, 1, ⟨2025, 1, 1⟩, none, 100⟩ = .ok (s', a) ∧
      a.is_current = true ∧ a.tenant = 7 ∧ a.room = 1 ∧ a.monthly_rent = 100 ∧
      s'.assignments = a :: ([] : List Assignment) ∧
      findRoom s' 1 = some ⟨1, .occupied⟩) :=
  ⟨rfl, (assign_room_contract ⟨[⟨1, .available⟩], []⟩ ⟨7, 1, ⟨2025, 1, 1⟩, none, 100⟩
    ⟨1, .available⟩ rfl).2.2.2.2 rfl rfl rfl rfl⟩

theorem roomHasCurrent_setRoomStatus (s : TState) (r : Nat) (st : RoomStatus) (rid : Nat) :
    roomHasCurrent (setRoomStatus s r st) rid = roomHasCurrent s rid := rfl

theorem tenantHasCurrent_setRoomStatus (s : TState) (r : Nat) (st : RoomStatus) (tid : Nat) :
    tenantHasCurrent (setRoomStatus s r st) tid = tenantHasCurrent s tid := rfl

/-- C9: in a reachable state, ending a current assignment frees the room: a
subsequent valid AssignRoom request for the same room (here, re-assigning the
same tenant with a well-formed lease) succeeds without Conflict. -/
theorem end_then_assign_succeeds (s : TState) (a : Assignment) (room : Room)
    (mOut mIn : Date) (lEnd : Option Date) (rent : Int)
    (hreach : Reach s)
    (hla : lookupAssignment s a.id = some a)
    (hcur : a.is_current = true)
    (hroom : findRoom s a.room = some room)
    (hmo : Date.ltb mOut a.move_in_date = false)
    (hlease : badLeaseDate mIn lEnd = false) :
    ∃ s1 s2 b, endAssignment s a.id mOut = .ok s1 ∧
      assignRoom s1 ⟨a.tenant, a.room, mIn, lEnd, rent⟩ = .ok (s2, b) := by
  obtain ⟨⟨hroomle, htenle⟩, hdates⟩ := reach_inv hreach
  have hmem : a ∈ s.assignments := List.mem_of_find?_eq_some hla
  have hdOk := hdates a hmem
  have hleaseA : badLeaseDate a.move_in_date a.lease_end_date = false := by
    unfold datesOk at hdOk
    unfold badLeaseDate
    revert hdOk
    cases a.lease_end_date <;> cases a.move_out_date <;> intro hdOk <;> simp_all
  have hclean1 : cleanCheck s { a with is_current := false, move_out_date := some mOut } = .ok () := by
    unfold cleanCheck
    have hbad : badLeaseDate ({ a with is_current := false, move_out_date := some mOut} : Assignment).move_in_date
        ({ a with is_current := false, move_out_date := some mOut} : Assignment).lease_end_date = false := hleaseA
    simp [hmo, hbad]
  have hsave1 : saveAssignment s { a with is_current := false, move_out_date := some mOut } = .ok
      { s with assignments := { a with is_current := false, move_out_date := some mOut }
          :: s.assignments.filter fun b => b.id != a.id } := by
    unfold saveAssignment
    rw [hclean1]
  have hend : endAssignment s a.id mOut = .ok (setRoomStatus
      { s with assignments := { a with is_current := false, move_out_date := some mOut }
          :: s.assignments.filter fun b => b.id != a.id }
      a.room .available) := by
    unfold endAssignment
    rw [hla]
    dsimp only
    rw [hsave1]
  have hfind1 : findRoom (setRoomStatus
      { s with assignments := { a with is_current := false, move_out_date := some mOut }
          :: s.assignments.filter fun b => b.id != a.id }
      a.room .available) a.room = some { room with status := .available } :=
    findRoom_setRoomStatus_self .available hroom
  have hrc : roomHasCurrent (setRoomStatus
      { s with assignments := { a with is_current := false, move_out_date := some mOut }
          :: s.assignments.filter fun b => b.id != a.id }
      a.room .available) a.room = false := by
    rw [roomHasCurrent_setRoomStatus]
    unfold roomHasCurrent
    apply List.any_eq_false.mpr
    intro b hb
    rcases List.mem_cons.mp hb with rfl | hb'
    · simp
    · intro hpb
      have hbmem := List.mem_filter.mp hb'
      rcases Bool.and_eq_true_iff.mp hpb with ⟨hbr, hbc⟩
      have hbid : b.id ≠ a.id := by simpa using hbmem.2
      have hbne : b ≠ a := fun he => hbid (by rw [he])
      have h2 : 2 ≤ s.assignments.countP fun x => x.room == a.room && x.is_current := by
        refine two_le_countP hbmem.1 hmem hbne ?_ ?_
        · rw [hbr, hbc]; rfl
        · simp [hcur]
      have hle := hroomle a.room
      unfold roomCount at hle
      omega
  have htc : tenantHasCurrent (setRoomStatus
      { s with assignments := { a with is_current := false, move_out_date := some mOut }
          :: s.assignments.filter fun b => b.id != a.id }
      a.room .available) a.tenant = false := by
    rw [tenantHasCurrent_setRoomStatus]
    unfold tenantHasCurrent
    apply List.any_eq_false.mpr
    intro b hb
    rcases List.mem_cons.mp hb with rfl | hb'
    · simp
    · intro hpb
      have hbmem := List.mem_filter.mp hb'
      rcases Bool.and_eq_true_iff.mp hpb with ⟨hbt, hbc⟩
      have hbid : b.id ≠ a.id := by simpa using hbmem.2
      have hbne : b ≠ a := fun he => hbid (by rw [he])
      have h2 : 2 ≤ s.assignments.countP fun x => x.tenant == a.tenant && x.is_current := by
        refine two_le_countP hbmem.1 hmem hbne ?_ ?_
        · rw [hbt, hbc]; rfl
        · simp [hcur]
      have hle := htenle a.tenant
      unfold tenantCount at hle
      omega
  exact ⟨_, _, _, hend,
    assignRoom_success _ ⟨a.tenant, a.room, mIn, lEnd, rent⟩ { room with status := .available }
      hfind1 hrc htc hlease rfl⟩

/-- C9 witness: tenant 7 currently in room 1 of a reachable state; the
assignment is ended on 2025-06-01 and the room successfully re-assigned. -/
theorem end_then_assign_succeeds_witness :
    lookupAssignment ⟨[⟨1, .occupied⟩], [⟨1, 7, 1, ⟨2025, 1, 1⟩, none, none, true, 100⟩]⟩
        (⟨1, 7, 1, ⟨2025, 1, 1⟩, none, none, true, 100⟩ : Assignment).id
      = some ⟨1, 7, 1, ⟨2025, 1, 1⟩, none, none, true, 100⟩ ∧
    Date.ltb ⟨2025, 6, 1⟩ ⟨2025, 1, 1⟩ = false ∧
    (∃ s1 s2 b,
      endAssignment ⟨[⟨1, .occupied⟩], [⟨1, 7, 1, ⟨2025, 1, 1⟩, none, none, true, 100⟩]⟩
          (⟨1, 7, 1, ⟨2025, 1, 1⟩, none, none, true, 100⟩ : Assignment).id ⟨2025, 6, 1⟩ = .ok s1 ∧
      assignRoom s1 ⟨7, 1, ⟨2025, 6, 2⟩, none, 100⟩ = .ok (s2, b)) :=
  ⟨rfl, rfl,
   end_then_assign_succeeds _ ⟨1, 7, 1, ⟨2025, 1, 1⟩, none, none, true, 100⟩ ⟨1, .occupied⟩
     ⟨2025, 6, 1⟩ ⟨2025, 6, 2⟩ none 100
     (@Reach.assign ⟨[⟨1, .available⟩], []⟩ ⟨[⟨1, .occupied⟩], [⟨1, 7, 1, ⟨2025, 1, 1⟩, none, none, true, 100⟩]⟩
       ⟨7, 1, ⟨2025, 1, 1⟩, none, 100⟩ ⟨1, 7, 1, ⟨2025, 1, 1⟩, none, none, true, 100⟩
       (Reach.init [⟨1, .available⟩]) rfl)
     rfl rfl rfl rfl rfl⟩

/-- Lexicographic comparison ignores a common prefix. -/
theorem strLtb_append_left (x s t : Str) : strLtb (x ++ s) (x ++ t) = strLtb s t := by
  induction x with
  | nil => rfl
  | cons c cs ih => simp [strLtb, ih]

/-- Comparison of two three-digit code strings follows the digit order. -/
theorem strLtb_digits {x2 x1 x0 y2 y1 y0 : Nat}
    (h : x2 < y2 ∨ (x2 = y2 ∧ (x1 < y1 ∨ (x1 = y1 ∧ x0 < y0)))) :
    strLtb [48 + x2, 48 + x1, 48 + x0] [48 + y2, 48 + y1, 48 + y0] = true := by
  simp only [strLtb]
  rcases h with h | ⟨h2, h | ⟨h1, h0⟩⟩
  · rw [if_pos (by omega)]
  · rw [if_neg (by omega), if_neg (by omega), if_pos (by omega)]
  · rw [if_neg (by omega), if_neg (by omega), if_neg (by omega), if_neg (by omega),
      if_pos (by omega)]

/-- Zero-padded three-digit rendering is strictly monotone. -/
theorem pad3_lt {a b : Nat} (hab : a < b) :
    strLtb (pad3 a) (pad3 b) = true := by
  unfold pad3
  exact strLtb_digits (by omega)

/-- The three rendered digits are ASCII digits. -/
theorem pad3_digits {n : Nat} (hn : n ≤ 999) : ∀ c ∈ pad3 n, 48 ≤ c ∧ c ≤ 57 := by
  intro c hc
  unfold pad3 at hc
  simp only [List.mem_cons, List.not_mem_nil, or_false] at hc
  rcases hc with rfl | rfl | rfl <;> omega

/-- Splitting a dash-free string is the identity. -/
theorem split45_no_dash {s : Str} (h : ∀ c ∈ s, c ≠ 45) : split45 s = [s] := by
  induction s with
  | nil => rfl
  | cons c cs ih =>
    have hc : c ≠ 45 := h c (List.mem_cons_self _ _)
    unfold split45
    rw [if_neg hc, ih fun d hd => h d (List.mem_cons_of_mem _ hd)]

/-- Parsing the zero-padded digits gives the number back. -/
theorem parse_pad3 {n : Nat} (hn : n ≤ 999) : parseNat? (pad3 n) = some n := by
  have hall : ((pad3 n).all fun c => 48 ≤ c && c ≤ 57) = true := by
    rw [List.all_eq_true]
    intro c hc
    have := pad3_digits hn c hc
    simp
    omega
  unfold parseNat? pad3
  unfold pad3 at hall
  rw [if_pos hall]
  simp only [List.foldl]
  congr 1
  omega

/-- Zero-padded rendering is injective below 1000. -/
theorem payFmt_inj {a b : Nat} (ha : a ≤ 999) (hb : b ≤ 999) (h : payFmt a = payFmt b) :
    a = b := by
  unfold payFmt fmt03 at h
  rw [if_pos (by omega : a < 1000), if_pos (by omega : b < 1000)] at h
  have h2 : pad3 a = pad3 b := List.append_cancel_left h
  unfold pad3 at h2
  simp only [List.cons.injEq] at h2
  omega

/-- One step of the maximum computation. -/
theorem maxId?_cons (x : Str) (xs : List Str) :
    maxId? (x :: xs) = match maxId? xs with
      | none => some x
      | some m => if strLtb m x then some x else some m := rfl

/-- One step of the iterated insert. -/
theorem payTable_succ (n : Nat) : payTable (n + 1) = insertPayment (payTable n) := rfl

/-- One step of split45. -/
theorem split45_cons (c : Nat) (cs : Str) :
    split45 (c :: cs) = if c = 45 then [] :: split45 cs
      else match split45 cs with
        | [] => [[c]]
        | s :: ss => (c :: s) :: ss := rfl

/-- When the string-greatest id is PAY- followed by the padded digits of n,
the generator yields PAY- followed by n+1. -/
theorem genNext_of_max {table : List Str} {n : Nat}
    (hmax : maxId? table = some (payFmt n)) (hn : n ≤ 999) :
    generate_payment_id table = payFmt (n + 1) := by
  have hfmt : fmt03 n = pad3 n := by
    unfold fmt03
    rw [if_pos (by omega)]
  have htake : (payFmt n).take payTag.length = payTag := by
    unfold payFmt
    exact List.take_left _ _
  have h45 : ∀ c ∈ pad3 n, c ≠ 45 := fun c hc => by
    have := pad3_digits hn c hc
    omega
  have hsplit : split45 (payFmt n) = [[80, 65, 89], pad3 n] := by
    unfold payFmt payTag
    rw [hfmt]
    show split45 (80 :: 65 :: 89 :: 45 :: pad3 n) = _
    rw [split45_cons, split45_cons, split45_cons, split45_cons, split45_no_dash h45]
    simp
  unfold generate_payment_id genNextId
  rw [hmax]
  dsimp only
  rw [if_pos htake, hsplit]
  dsimp only
  rw [parse_pad3 hn]
  rfl

/-- Characterization of the table after n inserts, for 1 <= n <= 999: the
string maximum is the last generated id and the next insert continues the
sequence. -/
theorem payTable_spec : ∀ n, 1 ≤ n → n ≤ 999 →
    maxId? (payTable n) = some (payFmt n) ∧
    generate_payment_id (payTable n) = payFmt (n + 1) ∧
    (∀ x ∈ payTable n, ∃ k, 1 ≤ k ∧ k ≤ n ∧ x = payFmt k) := by
  intro n
  induction n with
  | zero => intro h1 _; exact absurd h1 (by omega)
  | succ m ih =>
    intro _ h2
    by_cases hm : m = 0
    · subst hm
      have hbase : payTable 1 = [payFmt 1] := by decide
      have hmax : maxId? (payTable 1) = some (payFmt 1) := by rw [hbase]; rfl
      refine ⟨hmax, genNext_of_max hmax (by omega), ?_⟩
      intro x hx
      rw [hbase] at hx
      simp only [List.mem_cons, List.not_mem_nil, or_false] at hx
      exact ⟨1, le_refl _, le_refl _, hx⟩
    · have hm1 : 1 ≤ m := by omega
      have hm2 : m ≤ 999 := by omega
      obtain ⟨hmax, hgen, hmem⟩ := ih hm1 hm2
      have hstep : payTable (m + 1) = payFmt (m + 1) :: payTable m := by
        rw [payTable_succ]
        unfold insertPayment
        rw [hgen]
      have hlt : strLtb (payFmt m) (payFmt (m + 1)) = true := by
        unfold payFmt
        have hf1 : fmt03 m = pad3 m := by unfold fmt03; rw [if_pos (by omega)]
        have hf2 : fmt03 (m + 1) = pad3 (m + 1) := by unfold fmt03; rw [if_pos (by omega)]
        rw [hf1, hf2, strLtb_append_left]
        exact pad3_lt (by omega)
      have hmax' : maxId? (payTable (m + 1)) = some (payFmt (m + 1)) := by
        rw [hstep, maxId?_cons, hmax]
        simp [hlt]
      refine ⟨hmax', genNext_of_max hmax' (by omega), ?_⟩
      intro x hx
      rw [hstep] at hx
      rcases List.mem_cons.mp hx with rfl | hx'
      · exact ⟨m + 1, by omega, by omega, rfl⟩
      · obtain ⟨k, hk1, hk2, hkx⟩ := hmem x hx'
        exact ⟨k, hk1, by omega, hkx⟩

/-- At the 1000th insert the string maximum is PAY-999, so the generator
repeats PAY-1000, which is already in the table. -/
theorem payTable_1000 :
    generate_payment_id (payTable 1000) = payFmt 1000 ∧ payFmt 1000 ∈ payTable 1000 := by
  obtain ⟨hmax, hgen, _⟩ := payTable_spec 999 (by omega) (by omega)
  have hstep : payTable 1000 = payFmt 1000 :: payTable 999 := by
    rw [show (1000 : Nat) = 999 + 1 from rfl, payTable_succ]
    unfold insertPayment
    rw [hgen]
  have hflip : strLtb (payFmt 999) (payFmt 1000) = false := by decide
  have hmax1000 : maxId? (payTable 1000) = some (payFmt 999) := by
    rw [hstep, maxId?_cons, hmax]
    simp [hflip]
  exact ⟨genNext_of_max hmax1000 (by omega), hstep ▸ List.mem_cons_self _ _⟩

/-- Every iterated table is reachable by inserts. -/
theorem reachIds_payTable : ∀ n, ReachIds (payTable n)
  | 0 => ReachIds.empty
  | n + 1 => ReachIds.insert (reachIds_payTable n)

/-- C10 counterexample: generated identifiers are not always fresh.  After
1000 inserts from an empty table the ids are PAY-001..PAY-999 and PAY-1000;
the id greatest in string order is PAY-999 (string order puts PAY-1000 below
it), so the generator returns PAY-1000 again, which equals an existing id. -/
theorem generated_id_not_always_fresh :
    ¬ (∀ t, ReachIds t → generate_payment_id t ∉ t) := by
  intro h
  have h1 := payTable_1000
  exact h (payTable 1000) (reachIds_payTable 1000)
    (by rw [h1.1]; exact h1.2)

/-- C10 amended: the generator is fresh for the first 999 inserts: in every
table state reachable by at most 999 inserts from an empty table, the
generated id (PAY-001 on the empty table, otherwise one plus the parsed
number of the string-greatest id, zero-padded) differs from every existing
id.  Freshness first fails at the 1000th state. -/
theorem generated_id_fresh_below_1000 (n : Nat) (h : n ≤ 999) :
    generate_payment_id (payTable n) ∉ payTable n ∧
    (1 ≤ n → generate_payment_id (payTable n) = payFmt (n + 1)) := by
  by_cases h0 : n = 0
  · subst h0
    exact ⟨List.not_mem_nil _, fun h1 => absurd h1 (by omega)⟩
  · have h1 : 1 ≤ n := by omega
    obtain ⟨hmax, hgen, hmem⟩ := payTable_spec n h1 h
    refine ⟨?_, fun _ => hgen⟩
    intro hin
    rw [hgen] at hin
    obtain ⟨k, hk1, hk2, hkx⟩ := hmem _ hin
    by_cases hn9 : n + 1 ≤ 999
    · have : n + 1 = k := payFmt_inj (by omega) (by omega) hkx
      omega
    · have hn' : n = 999 := by omega
      subst hn'
      have hlen1 : (payFmt 1000).length = 8 := by decide
      have hlen2 : (payFmt k).length = 7 := by
        unfold payFmt fmt03
        rw [if_pos (by omega : k < 1000)]
        rfl
      rw [hkx] at hlen1
      omega

/-- C10 amended witness: after three inserts the table is PAY-003, PAY-002,
PAY-001 and the generator returns the fresh PAY-004. -/
theorem generated_id_fresh_below_1000_witness :
    3 ≤ 999 ∧
    (generate_payment_id (payTable 3) ∉ payTable 3 ∧
     (1 ≤ 3 → generate_payment_id (payTable 3) = payFmt (3 + 1))) :=
  ⟨by omega, generated_id_fresh_below_1000 3 (by omega)⟩

/-- C1 witness: the invariant at a concrete reachable state obtained by one
successful assignment. -/
theorem assignment_exclusivity_invariant_witness :
    ExclusivityInv
      { rooms := [⟨1, .occupied⟩],
        assignments := [⟨1, 7, 1, ⟨2025, 1, 1⟩, none, none, true, 100⟩] } :=
  assignment_exclusivity_invariant _
    (@Reach.assign ⟨[⟨1, .available⟩], []⟩ ⟨[⟨1, .occupied⟩], [⟨1, 7, 1, ⟨2025, 1, 1⟩, none, none, true, 100⟩]⟩
      ⟨7, 1, ⟨2025, 1, 1⟩, none, 100⟩ ⟨1, 7, 1, ⟨2025, 1, 1⟩, none, none, true, 100⟩
      (Reach.init [⟨1, .available⟩]) rfl)

end Kosan

